import Mathlib

/-!
# Verification of the medusa store cart-creation handler

A shallow embedding of `src/packages/medusa/src/api/routes/store/index.js`
(the `POST /carts` handler and its request validators) and of
`src/packages/medusa/src/api/routes/admin/gift-cards/delete-gift-card.ts`
(the `POST /batch-jobs` handler), together with proofs of the spec's
testable properties.

The handler is embedded as a pure function over
* a `World` of collaborators (region listing, customer lookup, line-item
  generation, sales-channel predicate, feature flags), and
* a `DB` persistence state (carts and line items), with the ORM
  transaction modelled as: the transaction block computes a candidate
  state, and any error inside the block discards it (rollback).

A `Trace` records the observable collaborator calls the claims speak
about: feature-flag consultations, line-item generation calls, and batch
attach calls.
-/

/-- JavaScript-level values as seen by the `class-validator` decorators on
the request body (`Item` in the source). `none : Option JsVal` stands for
an absent field (`undefined`). -/
inductive JsVal where
  | str (s : String)
  | intVal (n : Int)
  | floatVal (num : Int) (denom : Nat)
  | nullVal
  | boolVal (b : Bool)
deriving DecidableEq

/-- Embedding of class-validator `@IsNotEmpty()`: the value is not `''`,
not `null` and not `undefined`. -/
def isNotEmptyV : Option JsVal → Bool
  | none => false
  | some JsVal.nullVal => false
  | some (JsVal.str s) => !(s == "")
  | some _ => true

/-- Embedding of class-validator `@IsString()`. -/
def isStringV : Option JsVal → Bool
  | some (JsVal.str _) => true
  | _ => false

/-- Embedding of class-validator `@IsInt()`. -/
def isIntV : Option JsVal → Bool
  | some (JsVal.intVal _) => true
  | _ => false

/-- Embedding of the `Item` class validators in the source:
`variant_id` is `@IsNotEmpty() @IsString()`, `quantity` is
`@IsNotEmpty() @IsInt()`. Returns `true` when the item passes validation. -/
def validateItem (variant_id quantity : Option JsVal) : Bool :=
  isNotEmptyV variant_id && isStringV variant_id
    && isNotEmptyV quantity && isIntV quantity

/-- Error kinds. `invalidData` and `notFound` embed the corresponding
`MedusaError.Types`; `jsTypeError` embeds a raw JavaScript `TypeError`
(an unguarded property access on `undefined`). -/
inductive ErrKind where
  | invalidData
  | notFound
  | jsTypeError
deriving DecidableEq

/-- An error value carried by a rejected request. -/
structure MedusaErr where
  kind : ErrKind
  msg : String
deriving DecidableEq

/-- A region record as used by the handler (only the id is read). -/
structure Region where
  id : String
deriving DecidableEq

/-- A customer record returned by the identity collaborator. -/
structure Customer where
  id : String
  email : String
deriving DecidableEq

/-- A generated line item (the handler treats it opaquely: it is produced
by `lineItemService.generate` and handed to `addLineItems`). -/
structure LineItem where
  variant_id : String
  quantity : Int
  unit_price : Int
deriving DecidableEq

/-- A validated item request: `{variant_id, quantity}`. -/
structure ItemReq where
  variant_id : String
  quantity : Int
deriving DecidableEq

/-- The validated request body `StorePostCartReq` of the source. -/
structure StorePostCartReq where
  region_id : Option String
  country_code : Option String
  items : Option (List ItemReq)
  context : List (String × String)
  sales_channel_id : Option String
deriving DecidableEq

/-- The authenticated identity injected by the host auth layer
(`req.user`). -/
structure AuthUser where
  id : String
  customer_id : Option String
deriving DecidableEq

/-- The incoming request: validated body plus the request-derived context
(`reqIp.getClientIp(req)`, the `user-agent` header) and the optional
authenticated user. -/
structure Req where
  validatedBody : StorePostCartReq
  ip : String
  user_agent : String
  user : Option AuthUser
deriving DecidableEq

/-- A persisted cart record with the attributes the handler writes. -/
structure StoreCart where
  id : String
  region_id : String
  sales_channel_id : Option String
  customer_id : Option String
  email : Option String
  shipping_country : Option String
  context : List (String × String)
deriving DecidableEq

/-- The persistence state: persisted carts, persisted line items (each
tagged with its owning cart id), and the id counter for fresh cart ids. -/
structure DB where
  carts : List StoreCart
  lineItems : List (String × LineItem)
  nextId : Nat
deriving DecidableEq

/-- The collaborators the handler resolves from the container. The
services themselves live outside the sampled source; each is modelled
per the spec's external-interface section (§6). -/
structure World where
  regions : List Region
  customers : List Customer
  generate : String → Region → Int → Option String → Except MedusaErr LineItem
  channelOk : LineItem → Bool
  featureFlags : String → Bool

/-- Observable collaborator calls made while handling one request:
feature-flag consultations (by flag key), line-item generation calls (in
call order, as `(variant_id, quantity)`), and batch attach calls (batch
contents plus the `validateSalesChannels` option passed). -/
structure Trace where
  flagConsults : List String
  generateCalls : List (String × Int)
  attachCalls : List (List LineItem × Bool)
deriving DecidableEq

/-- The empty trace. -/
def Trace.empty : Trace := ⟨[], [], []⟩

/-- The fresh cart id `cartService.create` would assign on this state. -/
def freshCartId (db : DB) : String := "cart_" ++ toString db.nextId

/-- JavaScript object-spread merge `{...base, ...caller}` on association
lists: entries of `base` whose key also occurs in `caller` are overridden
by the `caller` entry. -/
def spreadMerge (base caller : List (String × String)) : List (String × String) :=
  base.filter (fun p => !(caller.any (fun q => q.1 == p.1))) ++ caller

/-- Region resolution, lines 180–192 of the handler. With an explicit
`region_id`, `regions.find(...)` is cast `as Region` without a guard; a
missing match leaves `region` as `undefined` and the very next read of
`region.id` (line 195) throws a JavaScript `TypeError`, embedded here as
the `jsTypeError` error on the `none` branch. Without `region_id`, an
empty region list throws `MedusaError(INVALID_DATA, "A region is required
to create a cart")`, else the first region is chosen. -/
def resolveRegion (regions : List Region) (region_id : Option String) :
    Except MedusaErr Region :=
  match region_id with
  | some rid =>
    match regions.find? (fun r => r.id == rid) with
    | some r => Except.ok r
    | none =>
      Except.error ⟨ErrKind.jsTypeError,
        "Cannot read properties of undefined (reading id)"⟩
  | none =>
    match regions with
    | [] => Except.error ⟨ErrKind.invalidData, "A region is required to create a cart"⟩
    | r :: _ => Except.ok r

/-- Modelled from the spec: the identity collaborator (§6), customer
lookup by id returning at least `{id, email}`; the service
(`customerService.retrieve`) is not part of the sampled source. A missing
customer is a not-found failure. -/
def retrieveCustomer (w : World) (cid : String) : Except MedusaErr Customer :=
  match w.customers.find? (fun c => c.id == cid) with
  | some c => Except.ok c
  | none => Except.error ⟨ErrKind.notFound, "Customer with id " ++ cid ++ " was not found"⟩

/-- Customer attachment, lines 203–208: when `req.user && req.user.customer_id`
is truthy (an empty-string id is falsy in JavaScript), the customer record
is independently re-fetched by id and its `id` and `email` are attached. -/
def attachCustomer (w : World) (user : Option AuthUser) :
    Except MedusaErr (Option (String × String)) :=
  match user with
  | none => Except.ok none
  | some u =>
    match u.customer_id with
    | none => Except.ok none
    | some cid =>
      if cid == "" then Except.ok none
      else
        match retrieveCustomer w cid with
        | Except.ok c => Except.ok (some (c.id, c.email))
        | Except.error e => Except.error e

/-- The `customer_id` passed to line-item generation (line 232):
`req.user?.customer_id`, with no truthiness filtering. -/
def userCustomerId : Option AuthUser → Option String
  | none => none
  | some u => u.customer_id

/-- The sequential generation loop, lines 224–236: for each requested
item in input order, call `lineItemServiceTx.generate(item.variant_id,
region.id, item.quantity, {region, customer_id})`; the first failure
aborts the loop. Returns the generation calls actually attempted (in
order) together with either the collected line items (input order) or the
first error. -/
def generateItems (w : World) (region : Region) (cid : Option String) :
    List ItemReq → List (String × Int) × Except MedusaErr (List LineItem)
  | [] => ([], Except.ok [])
  | it :: rest =>
    match w.generate it.variant_id region it.quantity cid with
    | Except.error e => ([(it.variant_id, it.quantity)], Except.error e)
    | Except.ok li =>
      let r := generateItems w region cid rest
      ((it.variant_id, it.quantity) :: r.1,
        match r.2 with
        | Except.ok lis => Except.ok (li :: lis)
        | Except.error e => Except.error e)

/-- Modelled from the spec: the persistence collaborator's `create` (§6);
`cartService.create` is not part of the sampled source. It persists a new
cart record with the given attributes under a fresh id and returns it. -/
def cartCreate (attrs : StoreCart) (db : DB) : StoreCart × DB :=
  let cart : StoreCart := { attrs with id := freshCartId db }
  (cart, { db with carts := db.carts ++ [cart], nextId := db.nextId + 1 })

/-- Modelled from the spec: the persistence collaborator's `addLineItems`
(§6) with the `validateSalesChannels` option (§4.3 step 5c) — attach the
batch to the cart, validating each item against its sales channel only
when the option is set; `cartService.addLineItems` is not part of the
sampled source. -/
def addLineItems (w : World) (cartId : String) (lis : List LineItem)
    (validateSalesChannels : Bool) (db : DB) : Except MedusaErr DB :=
  if validateSalesChannels && lis.any (fun li => !(w.channelOk li)) then
    Except.error ⟨ErrKind.invalidData,
      "The products must belong to the sales channel on which the cart has been created"⟩
  else
    Except.ok { db with lineItems := db.lineItems ++ lis.map (fun li => (cartId, li)) }

/-- The transaction body, lines 217–243: persist the cart; when
`validated.items?.length` is truthy (a present, non-empty list), generate
a line item per requested item sequentially, then attach the collected
batch in one `addLineItems` call whose `validateSalesChannels` option is
the result of consulting the `sales_channels` feature flag. Returns the
trace of the block and either the created cart's id with the updated
state, or the first error. -/
def txBlock (w : World) (validated : StorePostCartReq) (region : Region)
    (cid : Option String) (attrs : StoreCart) (db : DB) :
    Trace × Except MedusaErr (String × DB) :=
  let cdb := cartCreate attrs db
  match validated.items with
  | some (i0 :: irest) =>
    let g := generateItems w region cid (i0 :: irest)
    match g.2 with
    | Except.error e => (⟨[], g.1, []⟩, Except.error e)
    | Except.ok lis =>
      let flagVal := w.featureFlags "sales_channels"
      match addLineItems w cdb.1.id lis flagVal cdb.2 with
      | Except.error e =>
        (⟨["sales_channels"], g.1, [(lis, flagVal)]⟩, Except.error e)
      | Except.ok db2 =>
        (⟨["sales_channels"], g.1, [(lis, flagVal)]⟩, Except.ok (cdb.1.id, db2))
  | _ => (⟨[], [], []⟩, Except.ok (cdb.1.id, cdb.2))

/-- Modelled from the spec: the Cart Materializer (§4.4) /
`cartService.retrieveWithTotals` (§6) — a pure read after commit that
re-fetches the cart and its line items; the service is not part of the
sampled source. -/
def retrieveWithTotals (db : DB) (cartId : String) :
    Except MedusaErr (StoreCart × List LineItem) :=
  match db.carts.find? (fun c => c.id == cartId) with
  | some c => Except.ok (c, (db.lineItems.filter (fun p => p.1 == cartId)).map (fun p => p.2))
  | none => Except.error ⟨ErrKind.notFound, "Cart with id " ++ cartId ++ " was not found"⟩

/-- The result of one request: the persistence state afterwards, the
trace of collaborator calls, and the response (the materialized cart with
its line items) or the propagated error. -/
structure HandlerOut where
  db : DB
  trace : Trace
  out : Except MedusaErr (StoreCart × List LineItem)

/-- The cart attributes built on lines 194–214: region id, pass-through
sales channel id, the caller context spread on top of the `{ip,
user_agent}` request context, the re-fetched customer's id and email when
one was attached, and a lower-cased shipping country when a truthy
`country_code` was supplied. -/
def buildAttrs (validated : StorePostCartReq) (reqContext : List (String × String))
    (region : Region) (custo : Option (String × String)) : StoreCart :=
  let attrs0 : StoreCart :=
    { id := ""
      region_id := region.id
      sales_channel_id := validated.sales_channel_id
      customer_id := none
      email := none
      shipping_country := none
      context := spreadMerge reqContext validated.context }
  let attrs1 :=
    match custo with
    | some ce => { attrs0 with customer_id := some ce.1, email := some ce.2 }
    | none => attrs0
  match validated.country_code with
  | some cc =>
    if cc == "" then attrs1
    else { attrs1 with shipping_country := some cc.toLower }
  | none => attrs1

/-- The `POST /carts` handler, lines 161–251 of the source: build the
request context `{ip, user_agent}`, list regions and resolve the cart's
region, build the create attributes, attach the re-fetched customer when
authenticated, run the transaction block (any error inside rolls the
state back to `db`), and finally materialize the created cart. -/
def createCartHandler (w : World) (rq : Req) (db : DB) : HandlerOut :=
  let validated := rq.validatedBody
  let reqContext : List (String × String) :=
    [("ip", rq.ip), ("user_agent", rq.user_agent)]
  match resolveRegion w.regions validated.region_id with
  | Except.error e => ⟨db, Trace.empty, Except.error e⟩
  | Except.ok region =>
    match attachCustomer w rq.user with
    | Except.error e => ⟨db, Trace.empty, Except.error e⟩
    | Except.ok custo =>
      match txBlock w validated region (userCustomerId rq.user)
          (buildAttrs validated reqContext region custo) db with
      | (tr, Except.error e) => ⟨db, tr, Except.error e⟩
      | (tr, Except.ok cdb) =>
        match retrieveWithTotals cdb.2 cdb.1 with
        | Except.error e => ⟨cdb.2, tr, Except.error e⟩
        | Except.ok cl => ⟨cdb.2, tr, Except.ok cl⟩

/-- Operations of the `POST /batch-jobs` handler, in source order. -/
inductive BatchOp where
  | validateBody
  | resolveStrategy (key : String)
  | prepareWith (arg : String)
  | resolveService (name : String)
  | createJob
  | respond
deriving DecidableEq

/-- Whether an operation is a container resolution of the batch strategy. -/
def BatchOp.isResolveStrategy : BatchOp → Bool
  | BatchOp.resolveStrategy _ => true
  | _ => false

/-- Whether an operation invokes `prepareBatchJobForProcessing`. -/
def BatchOp.isPrepare : BatchOp → Bool
  | BatchOp.prepareWith _ => true
  | _ => false

/-- The operation sequence of the `POST /batch-jobs` handler exactly as
written in the source (lines 68–95): validate, resolve the strategy for
`batchType_` + type, prepare with the validated body, resolve the batch
job service, persist the job, resolve the same strategy key a second time
(the second `const batchStrategy` declaration in the same scope), invoke
preparation a second time with the persisted job's id, respond. -/
def batchJobHandlerOps (ty : String) : List BatchOp :=
  [ BatchOp.validateBody
  , BatchOp.resolveStrategy ("batchType_" ++ ty)
  , BatchOp.prepareWith "validatedBody"
  , BatchOp.resolveService "batchJobService"
  , BatchOp.createJob
  , BatchOp.resolveStrategy ("batchType_" ++ ty)
  , BatchOp.prepareWith "batchJobId"
  , BatchOp.respond ]

/-- Number of `const batchStrategy` declarations in the scope of the
`POST /batch-jobs` handler body, read off the source (lines 71 and 88). -/
def batchStrategyDeclOps (ty : String) : List BatchOp :=
  (batchJobHandlerOps ty).filter BatchOp.isResolveStrategy

def dbEmpty : DB := ⟨[], [], 0⟩

def wBase : World :=
  { regions := [⟨"r1"⟩]
    customers := [⟨"c1", "a@b.com"⟩]
    generate := fun vid _ q _ => Except.ok ⟨vid, q, 100⟩
    channelOk := fun _ => true
    featureFlags := fun k => k == "sales_channels" }

def wNoRegions : World := { wBase with regions := [] }

def wFailGen : World :=
  { wBase with generate := fun vid _ q _ =>
      if vid == "bad" then Except.error ⟨ErrKind.notFound, "variant not found"⟩
      else Except.ok ⟨vid, q, 100⟩ }

def rqPlain : Req :=
  { validatedBody :=
      { region_id := none, country_code := none, items := none
        context := [], sales_channel_id := none }
    ip := "::1", user_agent := "Chrome", user := none }

def rqThreeItems : Req :=
  { rqPlain with validatedBody :=
      { rqPlain.validatedBody with items := some [⟨"v1", 1⟩, ⟨"bad", 1⟩, ⟨"v3", 1⟩] } }

def rqBadRegion : Req :=
  { rqPlain with validatedBody :=
      { rqPlain.validatedBody with region_id := some "nope" } }

/-- The cart produced by `rqPlain` against `wBase` on the empty state. -/
def cartR1 : StoreCart :=
  { id := "cart_0", region_id := "r1", sales_channel_id := none
    customer_id := none, email := none, shipping_country := none
    context := [("ip", "::1"), ("user_agent", "Chrome")] }

def rqTwoItems : Req :=
  { rqPlain with validatedBody :=
      { rqPlain.validatedBody with items := some [⟨"v1", 2⟩, ⟨"v2", 3⟩] } }

def rqCallerCtx : Req :=
  { rqPlain with validatedBody :=
      { rqPlain.validatedBody with context := [("ip", "override-ip")] } }

def rqOneItem : Req :=
  { rqPlain with validatedBody :=
      { rqPlain.validatedBody with items := some [⟨"v1", 2⟩] } }

def rqAuthNoItems : Req :=
  { rqPlain with user := some ⟨"u1", some "c1"⟩ }

def cartAuth : StoreCart :=
  { cartR1 with customer_id := some "c1", email := some "a@b.com" }

theorem find?_append_left_none {α} (p : α → Bool) (l1 l2 : List α)
    (h : ∀ x ∈ l1, p x = false) : (l1 ++ l2).find? p = l2.find? p := by
  induction l1 with
  | nil => rfl
  | cons a t ih =>
    have ha : p a = false := h a (List.mem_cons_self a t)
    simp only [List.cons_append, List.find?_cons, ha, cond_false]
    exact ih (fun x hx => h x (List.mem_cons_of_mem a hx))

theorem filter_false_of_all {α} (p : α → Bool) (l : List α)
    (h : ∀ x ∈ l, p x = false) : l.filter p = [] := by
  induction l with
  | nil => rfl
  | cons a t ih =>
    have ha : p a = false := h a (List.mem_cons_self a t)
    simp only [List.filter_cons, ha, if_neg]
    · exact ih fun x hx => h x (List.mem_cons_of_mem a hx)

theorem retrieveWithTotals_append (carts : List StoreCart)
    (items : List (String × LineItem)) (n : Nat) (cart : StoreCart)
    (batch : List LineItem) (cid : String) (hid : cart.id = cid)
    (hC : ∀ c ∈ carts, c.id ≠ cid) (hL : ∀ q ∈ items, q.1 ≠ cid) :
    retrieveWithTotals
      ⟨carts ++ [cart], items ++ batch.map (fun li => (cid, li)), n⟩ cid
      = Except.ok (cart, batch) := by
  unfold retrieveWithTotals
  have h1 : (carts ++ [cart]).find? (fun c => c.id == cid) = some cart := by
    rw [find?_append_left_none]
    · simp [hid]
    · intro c hc
      simpa using hC c hc
  rw [h1]
  simp only
  have h2 : (items ++ batch.map fun li => (cid, li)).filter (fun q => q.1 == cid)
      = batch.map (fun li => (cid, li)) := by
    rw [List.filter_append]
    rw [filter_false_of_all _ items (fun q hq => by simpa using hL q hq)]
    rw [List.filter_map]
    have hcomp : ((fun q : String × LineItem => q.1 == cid) ∘ fun li => (cid, li))
        = fun _ => true := by
      funext li; simp
    rw [hcomp, List.filter_true, List.nil_append]
  rw [h2]
  simp [List.map_map, Function.comp]

theorem generateItems_cons_err (w : World) (region : Region) (cid : Option String)
    (it : ItemReq) (rest : List ItemReq) (e : MedusaErr)
    (hg : w.generate it.variant_id region it.quantity cid = Except.error e) :
    generateItems w region cid (it :: rest)
      = ([(it.variant_id, it.quantity)], Except.error e) := by
  unfold generateItems
  rw [hg]

theorem generateItems_cons_ok (w : World) (region : Region) (cid : Option String)
    (it : ItemReq) (rest : List ItemReq) (li : LineItem)
    (hg : w.generate it.variant_id region it.quantity cid = Except.ok li) :
    generateItems w region cid (it :: rest)
      = ((it.variant_id, it.quantity) :: (generateItems w region cid rest).1,
         match (generateItems w region cid rest).2 with
         | Except.ok lis => Except.ok (li :: lis)
         | Except.error e => Except.error e) := by
  conv_lhs => unfold generateItems
  rw [hg]

theorem generateItems_ok_forall2 (w : World) (region : Region) (cid : Option String)
    (its : List ItemReq) (lis : List LineItem)
    (h : (generateItems w region cid its).2 = Except.ok lis) :
    List.Forall₂
      (fun i li => w.generate i.variant_id region i.quantity cid = Except.ok li)
      its lis := by
  induction its generalizing lis with
  | nil =>
    unfold generateItems at h
    injection h with h
    subst h
    exact List.Forall₂.nil
  | cons it rest ih =>
    cases hg : w.generate it.variant_id region it.quantity cid with
    | error e =>
      rw [generateItems_cons_err w region cid it rest e hg] at h
      exact absurd h (by simp)
    | ok li =>
      rw [generateItems_cons_ok w region cid it rest li hg] at h
      simp only at h
      cases hr2 : (generateItems w region cid rest).2 with
      | error e => rw [hr2] at h; exact absurd h (by simp)
      | ok lis2 =>
        rw [hr2] at h
        injection h with h
        subst h
        exact List.Forall₂.cons hg (ih lis2 hr2)

theorem generateItems_ok_calls (w : World) (region : Region) (cid : Option String)
    (its : List ItemReq) (lis : List LineItem)
    (h : (generateItems w region cid its).2 = Except.ok lis) :
    (generateItems w region cid its).1
      = its.map (fun i => (i.variant_id, i.quantity)) := by
  induction its generalizing lis with
  | nil => rfl
  | cons it rest ih =>
    cases hg : w.generate it.variant_id region it.quantity cid with
    | error e =>
      rw [generateItems_cons_err w region cid it rest e hg] at h
      exact absurd h (by simp)
    | ok li =>
      rw [generateItems_cons_ok w region cid it rest li hg] at h ⊢
      simp only at h ⊢
      cases hr2 : (generateItems w region cid rest).2 with
      | error e => rw [hr2] at h; exact absurd h (by simp)
      | ok lis2 =>
        rw [List.map_cons]
        exact congrArg _ (ih lis2 hr2)

theorem txBlock_items_empty (w : World) (validated : StorePostCartReq)
    (region : Region) (cid : Option String) (attrs : StoreCart) (db : DB)
    (h : validated.items = none ∨ validated.items = some []) :
    txBlock w validated region cid attrs db
      = (⟨[], [], []⟩, Except.ok (freshCartId db,
          { carts := db.carts ++ [{ attrs with id := freshCartId db }],
            lineItems := db.lineItems, nextId := db.nextId + 1 })) := by
  rcases h with h | h <;> simp only [txBlock, cartCreate, h]

theorem txBlock_gen_err (w : World) (validated : StorePostCartReq)
    (region : Region) (cid : Option String) (attrs : StoreCart) (db : DB)
    (i0 : ItemReq) (irest : List ItemReq) (e : MedusaErr)
    (hi : validated.items = some (i0 :: irest))
    (hg : (generateItems w region cid (i0 :: irest)).2 = Except.error e) :
    txBlock w validated region cid attrs db
      = (⟨[], (generateItems w region cid (i0 :: irest)).1, []⟩, Except.error e) := by
  simp only [txBlock, cartCreate, hi, hg]

theorem txBlock_items_ok (w : World) (validated : StorePostCartReq)
    (region : Region) (cid : Option String) (attrs : StoreCart) (db : DB)
    (i0 : ItemReq) (irest : List ItemReq) (lis : List LineItem)
    (hi : validated.items = some (i0 :: irest))
    (hg : (generateItems w region cid (i0 :: irest)).2 = Except.ok lis)
    (hch : (w.featureFlags "sales_channels"
            && lis.any (fun li => !(w.channelOk li))) = false) :
    txBlock w validated region cid attrs db
      = (⟨["sales_channels"], (generateItems w region cid (i0 :: irest)).1,
          [(lis, w.featureFlags "sales_channels")]⟩,
         Except.ok (freshCartId db,
          { carts := db.carts ++ [{ attrs with id := freshCartId db }],
            lineItems := db.lineItems ++ lis.map (fun li => (freshCartId db, li)),
            nextId := db.nextId + 1 })) := by
  simp only [txBlock, cartCreate, hi, hg, addLineItems, hch]
  simp

theorem txBlock_attach_err (w : World) (validated : StorePostCartReq)
    (region : Region) (cid : Option String) (attrs : StoreCart) (db : DB)
    (i0 : ItemReq) (irest : List ItemReq) (lis : List LineItem)
    (hi : validated.items = some (i0 :: irest))
    (hg : (generateItems w region cid (i0 :: irest)).2 = Except.ok lis)
    (hch : (w.featureFlags "sales_channels"
            && lis.any (fun li => !(w.channelOk li))) = true) :
    txBlock w validated region cid attrs db
      = (⟨["sales_channels"], (generateItems w region cid (i0 :: irest)).1,
          [(lis, w.featureFlags "sales_channels")]⟩,
         Except.error ⟨ErrKind.invalidData,
           "The products must belong to the sales channel on which the cart has been created"⟩) := by
  simp only [txBlock, cartCreate, hi, hg, addLineItems, hch]
  simp

theorem txBlock_ok_char (w : World) (validated : StorePostCartReq)
    (region : Region) (cid : Option String) (attrs : StoreCart) (db : DB)
    (tr : Trace) (s : String × DB)
    (h : txBlock w validated region cid attrs db = (tr, Except.ok s)) :
    ∃ batch : List LineItem,
      s = (freshCartId db,
           { carts := db.carts ++ [{ attrs with id := freshCartId db }],
             lineItems := db.lineItems ++ batch.map (fun li => (freshCartId db, li)),
             nextId := db.nextId + 1 })
      ∧ (match validated.items with
         | some (i0 :: irest) =>
             (generateItems w region cid (i0 :: irest)).2 = Except.ok batch
             ∧ tr = ⟨["sales_channels"], (generateItems w region cid (i0 :: irest)).1,
                     [(batch, w.featureFlags "sales_channels")]⟩
         | _ => batch = [] ∧ tr = ⟨[], [], []⟩) := by
  cases hi : validated.items with
  | none =>
    rw [txBlock_items_empty w validated region cid attrs db (Or.inl hi)] at h
    injection h with h1 h2
    injection h2 with h2
    subst h2
    subst h1
    exact ⟨[], by simp, rfl, rfl⟩
  | some its =>
    cases its with
    | nil =>
      rw [txBlock_items_empty w validated region cid attrs db (Or.inr hi)] at h
      injection h with h1 h2
      injection h2 with h2
      subst h2
      subst h1
      exact ⟨[], by simp, rfl, rfl⟩
    | cons i0 irest =>
      cases hg : (generateItems w region cid (i0 :: irest)).2 with
      | error e =>
        rw [txBlock_gen_err w validated region cid attrs db i0 irest e hi hg] at h
        injection h with h1 h2
        exact absurd h2.symm (by simp)
      | ok lis =>
        cases hch : (w.featureFlags "sales_channels"
            && lis.any (fun li => !(w.channelOk li))) with
        | true =>
          rw [txBlock_attach_err w validated region cid attrs db i0 irest lis hi hg hch] at h
          injection h with h1 h2
          exact absurd h2.symm (by simp)
        | false =>
          rw [txBlock_items_ok w validated region cid attrs db i0 irest lis hi hg hch] at h
          injection h with h1 h2
          injection h2 with h2
          subst h2
          subst h1
          exact ⟨lis, rfl, hg, rfl⟩

theorem createCartHandler_eq_of_resolve_err (w : World) (rq : Req) (db : DB)
    (e : MedusaErr)
    (hr : resolveRegion w.regions rq.validatedBody.region_id = Except.error e) :
    createCartHandler w rq db = ⟨db, Trace.empty, Except.error e⟩ := by
  simp only [createCartHandler, hr]

theorem createCartHandler_eq_of_cust_err (w : World) (rq : Req) (db : DB)
    (region : Region) (e : MedusaErr)
    (hr : resolveRegion w.regions rq.validatedBody.region_id = Except.ok region)
    (hc : attachCustomer w rq.user = Except.error e) :
    createCartHandler w rq db = ⟨db, Trace.empty, Except.error e⟩ := by
  simp only [createCartHandler, hr, hc]

theorem createCartHandler_eq_of_tx_err (w : World) (rq : Req) (db : DB)
    (region : Region) (custo : Option (String × String)) (tr : Trace) (e : MedusaErr)
    (hr : resolveRegion w.regions rq.validatedBody.region_id = Except.ok region)
    (hc : attachCustomer w rq.user = Except.ok custo)
    (htx : txBlock w rq.validatedBody region (userCustomerId rq.user)
        (buildAttrs rq.validatedBody [("ip", rq.ip), ("user_agent", rq.user_agent)]
          region custo) db
      = (tr, Except.error e)) :
    createCartHandler w rq db = ⟨db, tr, Except.error e⟩ := by
  simp only [createCartHandler, hr, hc, htx]

theorem createCartHandler_eq_of_tx_ok (w : World) (rq : Req) (db : DB)
    (region : Region) (custo : Option (String × String)) (tr : Trace) (s : String × DB)
    (hr : resolveRegion w.regions rq.validatedBody.region_id = Except.ok region)
    (hc : attachCustomer w rq.user = Except.ok custo)
    (htx : txBlock w rq.validatedBody region (userCustomerId rq.user)
        (buildAttrs rq.validatedBody [("ip", rq.ip), ("user_agent", rq.user_agent)]
          region custo) db
      = (tr, Except.ok s)) :
    createCartHandler w rq db =
      (match retrieveWithTotals s.2 s.1 with
       | Except.error e => ⟨s.2, tr, Except.error e⟩
       | Except.ok cl => ⟨s.2, tr, Except.ok cl⟩) := by
  simp only [createCartHandler, hr, hc, htx]

theorem createCartHandler_ok_char (w : World) (rq : Req) (db : DB)
    (cart : StoreCart) (lis : List LineItem)
    (hfreshC : ∀ c ∈ db.carts, c.id ≠ freshCartId db)
    (hfreshL : ∀ q ∈ db.lineItems, q.1 ≠ freshCartId db)
    (hok : (createCartHandler w rq db).out = Except.ok (cart, lis)) :
    ∃ region custo,
      resolveRegion w.regions rq.validatedBody.region_id = Except.ok region
      ∧ attachCustomer w rq.user = Except.ok custo
      ∧ cart = { buildAttrs rq.validatedBody
                   [("ip", rq.ip), ("user_agent", rq.user_agent)] region custo
                 with id := freshCartId db }
      ∧ (createCartHandler w rq db).db.carts = db.carts ++ [cart]
      ∧ (createCartHandler w rq db).db.lineItems
          = db.lineItems ++ lis.map (fun li => (freshCartId db, li))
      ∧ (match rq.validatedBody.items with
         | some (i0 :: irest) =>
             (generateItems w region (userCustomerId rq.user) (i0 :: irest)).2
               = Except.ok lis
             ∧ (createCartHandler w rq db).trace
                 = ⟨["sales_channels"],
                    (generateItems w region (userCustomerId rq.user) (i0 :: irest)).1,
                    [(lis, w.featureFlags "sales_channels")]⟩
         | _ => lis = [] ∧ (createCartHandler w rq db).trace = ⟨[], [], []⟩) := by
  cases hr : resolveRegion w.regions rq.validatedBody.region_id with
  | error e =>
    rw [createCartHandler_eq_of_resolve_err w rq db e hr] at hok
    exact absurd hok (by simp)
  | ok region =>
    cases hc : attachCustomer w rq.user with
    | error e =>
      rw [createCartHandler_eq_of_cust_err w rq db region e hr hc] at hok
      exact absurd hok (by simp)
    | ok custo =>
      rcases htx0 : txBlock w rq.validatedBody region (userCustomerId rq.user)
          (buildAttrs rq.validatedBody [("ip", rq.ip), ("user_agent", rq.user_agent)]
            region custo) db with ⟨tr, res⟩
      cases res with
      | error e =>
        rw [createCartHandler_eq_of_tx_err w rq db region custo tr e hr hc htx0] at hok
        exact absurd hok (by simp)
      | ok s =>
        obtain ⟨batch, hs, hcase⟩ :=
          txBlock_ok_char w rq.validatedBody region (userCustomerId rq.user)
            (buildAttrs rq.validatedBody [("ip", rq.ip), ("user_agent", rq.user_agent)]
              region custo) db tr s htx0
        subst hs
        have hretr : retrieveWithTotals
            ({ carts := db.carts ++ [{ buildAttrs rq.validatedBody
                  [("ip", rq.ip), ("user_agent", rq.user_agent)] region custo
                  with id := freshCartId db }],
               lineItems := db.lineItems ++ batch.map (fun li => (freshCartId db, li)),
               nextId := db.nextId + 1 } : DB) (freshCartId db)
            = Except.ok ({ buildAttrs rq.validatedBody
                  [("ip", rq.ip), ("user_agent", rq.user_agent)] region custo
                  with id := freshCartId db }, batch) :=
          retrieveWithTotals_append db.carts db.lineItems (db.nextId + 1) _ batch
            (freshCartId db) rfl hfreshC hfreshL
        have heq := createCartHandler_eq_of_tx_ok w rq db region custo tr _ hr hc htx0
        simp only at heq
        rw [hretr] at heq
        rw [heq] at hok
        simp only at hok
        injection hok with hok
        injection hok with hcart hlis
        refine ⟨region, custo, rfl, rfl, hcart.symm, ?_, ?_, ?_⟩
        · rw [heq]
          simp only
          rw [← hcart]
        · rw [heq]
          simp only
          rw [← hlis]
        · rw [hlis] at hcase
          rw [heq]
          simp only
          exact hcase

theorem createCartHandler_err_rollback (w : World) (rq : Req) (db : DB) (e : MedusaErr)
    (hfreshC : ∀ c ∈ db.carts, c.id ≠ freshCartId db)
    (hfreshL : ∀ q ∈ db.lineItems, q.1 ≠ freshCartId db)
    (herr : (createCartHandler w rq db).out = Except.error e) :
    (createCartHandler w rq db).db = db := by
  cases hr : resolveRegion w.regions rq.validatedBody.region_id with
  | error e2 => rw [createCartHandler_eq_of_resolve_err w rq db e2 hr]
  | ok region =>
    cases hc : attachCustomer w rq.user with
    | error e2 => rw [createCartHandler_eq_of_cust_err w rq db region e2 hr hc]
    | ok custo =>
      rcases htx0 : txBlock w rq.validatedBody region (userCustomerId rq.user)
          (buildAttrs rq.validatedBody [("ip", rq.ip), ("user_agent", rq.user_agent)]
            region custo) db with ⟨tr, res⟩
      cases res with
      | error e2 => rw [createCartHandler_eq_of_tx_err w rq db region custo tr e2 hr hc htx0]
      | ok s =>
        obtain ⟨batch, hs, hcase⟩ :=
          txBlock_ok_char w rq.validatedBody region (userCustomerId rq.user)
            (buildAttrs rq.validatedBody [("ip", rq.ip), ("user_agent", rq.user_agent)]
              region custo) db tr s htx0
        subst hs
        have hretr : retrieveWithTotals
            ({ carts := db.carts ++ [{ buildAttrs rq.validatedBody
                  [("ip", rq.ip), ("user_agent", rq.user_agent)] region custo
                  with id := freshCartId db }],
               lineItems := db.lineItems ++ batch.map (fun li => (freshCartId db, li)),
               nextId := db.nextId + 1 } : DB) (freshCartId db)
            = Except.ok ({ buildAttrs rq.validatedBody
                  [("ip", rq.ip), ("user_agent", rq.user_agent)] region custo
                  with id := freshCartId db }, batch) :=
          retrieveWithTotals_append db.carts db.lineItems (db.nextId + 1) _ batch
            (freshCartId db) rfl hfreshC hfreshL
        have heq := createCartHandler_eq_of_tx_ok w rq db region custo tr _ hr hc htx0
        simp only at heq
        rw [hretr] at heq
        rw [heq] at herr
        exact absurd herr (by simp)

theorem lookup_eq_none_of_any_false (k : String) (l : List (String × String))
    (h : l.any (fun q => q.1 == k) = false) : List.lookup k l = none := by
  induction l with
  | nil => rfl
  | cons p t ih =>
    rw [List.any_cons] at h
    have h1 : (p.1 == k) = false := by
      cases hpk : (p.1 == k) with
      | true => rw [hpk] at h; simp at h
      | false => rfl
    have h2 : t.any (fun q => q.1 == k) = false := by
      cases ht : t.any (fun q => q.1 == k) with
      | true => rw [ht, h1] at h; simp at h
      | false => rfl
    obtain ⟨a, b⟩ := p
    rw [List.lookup_cons]
    have hka : (k == a) = false := by
      cases hka : (k == a) with
      | true =>
        have : k = a := by simpa using hka
        subst this
        simp at h1
      | false => rfl
    rw [hka]
    exact ih h2

theorem lookup_isSome_of_any_true (k : String) (l : List (String × String))
    (h : l.any (fun q => q.1 == k) = true) : ∃ v, List.lookup k l = some v := by
  induction l with
  | nil => simp at h
  | cons p t ih =>
    obtain ⟨a, b⟩ := p
    rw [List.lookup_cons]
    cases hka : (k == a) with
    | true => exact ⟨b, rfl⟩
    | false =>
      rw [List.any_cons] at h
      have h1 : ((a, b).1 == k) = false := by
        cases hak : ((a, b).1 == k) with
        | true =>
          have : a = k := by simpa using hak
          subst this
          simp at hka
        | false => rfl
      rw [h1] at h
      simp only [Bool.false_or] at h
      exact ih h

theorem lookup_spreadMerge (base caller : List (String × String)) (k : String) :
    List.lookup k (spreadMerge base caller)
      = (List.lookup k caller).orElse (fun _ => List.lookup k base) := by
  induction base with
  | nil =>
    show List.lookup k caller = _
    cases h : List.lookup k caller <;> simp [Option.orElse, h]
  | cons p bs ih =>
    obtain ⟨a, b⟩ := p
    unfold spreadMerge at ih ⊢
    rw [List.filter_cons]
    cases hf : caller.any (fun q => q.1 == (a, b).1) with
    | true =>
      simp only [hf, Bool.not_true, Bool.false_eq_true, if_false]
      rw [ih]
      cases hka : (k == a) with
      | true =>
        have hk : k = a := by simpa using hka
        subst hk
        obtain ⟨v, hv⟩ := lookup_isSome_of_any_true k caller (by
          simpa using hf)
        rw [hv]
        simp [Option.orElse]
      | false =>
        rw [List.lookup_cons, hka]
    | false =>
      simp only [hf, Bool.not_false, if_true]
      cases hka : (k == a) with
      | true =>
        have hk : k = a := by simpa using hka
        subst hk
        have hnone : List.lookup k caller = none :=
          lookup_eq_none_of_any_false k caller (by simpa using hf)
        simp [List.cons_append, List.lookup_cons, hka, hnone, Option.orElse]
      | false =>
        simp only [List.cons_append, List.lookup_cons, hka]
        exact ih

theorem buildAttrs_region_id (validated : StorePostCartReq)
    (reqContext : List (String × String)) (region : Region)
    (custo : Option (String × String)) :
    (buildAttrs validated reqContext region custo).region_id = region.id := by
  unfold buildAttrs
  cases custo <;> cases validated.country_code <;> simp only <;>
    first
    | rfl
    | (split <;> rfl)

theorem buildAttrs_context (validated : StorePostCartReq)
    (reqContext : List (String × String)) (region : Region)
    (custo : Option (String × String)) :
    (buildAttrs validated reqContext region custo).context
      = spreadMerge reqContext validated.context := by
  unfold buildAttrs
  cases custo <;> cases validated.country_code <;> simp only <;>
    first
    | rfl
    | (split <;> rfl)

theorem buildAttrs_customer (validated : StorePostCartReq)
    (reqContext : List (String × String)) (region : Region)
    (ce : String × String) :
    (buildAttrs validated reqContext region (some ce)).customer_id = some ce.1
    ∧ (buildAttrs validated reqContext region (some ce)).email = some ce.2 := by
  unfold buildAttrs
  cases validated.country_code <;> simp only <;>
    first
    | trivial
    | exact ⟨rfl, rfl⟩
    | (split <;> first | trivial | exact ⟨rfl, rfl⟩)

/-- C1: if anything fails while handling a cart-creation request — in
particular if line-item generation or attachment fails inside the
transaction — the persistence state is rolled back unchanged: no cart
with the created cart's id and no line items of that cart exist
afterwards. -/
theorem cart_creation_atomic_rollback (w : World) (rq : Req) (db : DB) (e : MedusaErr)
    (hfreshC : ∀ c ∈ db.carts, c.id ≠ freshCartId db)
    (hfreshL : ∀ q ∈ db.lineItems, q.1 ≠ freshCartId db)
    (herr : (createCartHandler w rq db).out = Except.error e) :
    (createCartHandler w rq db).db = db
    ∧ (∀ c ∈ (createCartHandler w rq db).db.carts, c.id ≠ freshCartId db)
    ∧ ∀ q ∈ (createCartHandler w rq db).db.lineItems, q.1 ≠ freshCartId db := by
  have h := createCartHandler_err_rollback w rq db e hfreshC hfreshL herr
  exact ⟨h, by rw [h]; exact hfreshC, by rw [h]; exact hfreshL⟩

/-- C1 witness: generation fails on the second of three requested items;
afterwards the state equals the initial empty state. -/
theorem cart_creation_atomic_rollback_witness :
    (createCartHandler wFailGen rqThreeItems dbEmpty).db = dbEmpty
    ∧ (∀ c ∈ (createCartHandler wFailGen rqThreeItems dbEmpty).db.carts,
        c.id ≠ freshCartId dbEmpty)
    ∧ ∀ q ∈ (createCartHandler wFailGen rqThreeItems dbEmpty).db.lineItems,
        q.1 ≠ freshCartId dbEmpty :=
  cart_creation_atomic_rollback wFailGen rqThreeItems dbEmpty
    ⟨ErrKind.notFound, "variant not found"⟩
    (by simp [dbEmpty]) (by simp [dbEmpty]) (by rfl)

/-- C2: with no `region_id` supplied, an empty region listing fails with
the invalid-data "A region is required to create a cart" error (the
spec's `ConfigurationError`) before any persistence, and a non-empty
listing gives the created cart the first region in list order. -/
theorem cart_region_defaults_to_first (w : World) (rq : Req) (db : DB)
    (hno : rq.validatedBody.region_id = none)
    (hfreshC : ∀ c ∈ db.carts, c.id ≠ freshCartId db)
    (hfreshL : ∀ q ∈ db.lineItems, q.1 ≠ freshCartId db) :
    (w.regions = [] →
      (createCartHandler w rq db).out
        = Except.error ⟨ErrKind.invalidData, "A region is required to create a cart"⟩
      ∧ (createCartHandler w rq db).db = db)
    ∧ ∀ r rest cart lis, w.regions = r :: rest →
        (createCartHandler w rq db).out = Except.ok (cart, lis) →
        cart.region_id = r.id := by
  constructor
  · intro hempty
    have hr : resolveRegion w.regions rq.validatedBody.region_id
        = Except.error ⟨ErrKind.invalidData, "A region is required to create a cart"⟩ := by
      rw [hno, hempty]
      rfl
    rw [createCartHandler_eq_of_resolve_err w rq db _ hr]
    exact ⟨rfl, rfl⟩
  · intro r rest cart lis hcons hok
    obtain ⟨region, custo, hr, hc, hcart, hdb1, hdb2, hrest⟩ :=
      createCartHandler_ok_char w rq db cart lis hfreshC hfreshL hok
    have hr2 : resolveRegion w.regions rq.validatedBody.region_id = Except.ok r := by
      rw [hno, hcons]
      rfl
    rw [hr2] at hr
    injection hr with hr
    subst hr
    rw [hcart]
    exact buildAttrs_region_id rq.validatedBody
      [("ip", rq.ip), ("user_agent", rq.user_agent)] r custo

/-- C2 witness: the empty-region listing rejects the request with the
invalid-data error, and with one region `r1` the created cart's region is
`r1`. -/
theorem cart_region_defaults_to_first_witness :
    (createCartHandler wNoRegions rqPlain dbEmpty).out
      = Except.error ⟨ErrKind.invalidData, "A region is required to create a cart"⟩
    ∧ cartR1.region_id = (⟨"r1"⟩ : Region).id :=
  ⟨((cart_region_defaults_to_first wNoRegions rqPlain dbEmpty rfl
      (by simp [dbEmpty]) (by simp [dbEmpty])).1 rfl).1,
   (cart_region_defaults_to_first wBase rqPlain dbEmpty rfl
      (by simp [dbEmpty]) (by simp [dbEmpty])).2 ⟨"r1"⟩ [] cartR1 [] rfl (by rfl)⟩

/-- C4 counterexample: a request whose `region_id` matches no region
fails with the JavaScript TypeError of the unguarded `region.id` access,
whose kind is not `notFound` — the claim's NotFoundError never occurs. -/
theorem region_explicit_miss_cex :
    (createCartHandler wBase rqBadRegion dbEmpty).out
      = Except.error ⟨ErrKind.jsTypeError,
          "Cannot read properties of undefined (reading id)"⟩
    ∧ ErrKind.jsTypeError ≠ ErrKind.notFound :=
  ⟨rfl, by decide⟩

/-- C4 amended: with an explicit `region_id` matching no region, the
unguarded `regions.find(...) as Region` leaves `region` undefined and the
first `region.id` access fails with a JavaScript TypeError (not a
NotFoundError); nothing is persisted. -/
theorem region_explicit_miss_typeerror (w : World) (rq : Req) (db : DB) (rid : String)
    (hrid : rq.validatedBody.region_id = some rid)
    (hmiss : w.regions.find? (fun r => r.id == rid) = none) :
    (createCartHandler w rq db).out
      = Except.error ⟨ErrKind.jsTypeError,
          "Cannot read properties of undefined (reading id)"⟩
    ∧ (createCartHandler w rq db).db = db := by
  have hr : resolveRegion w.regions rq.validatedBody.region_id
      = Except.error ⟨ErrKind.jsTypeError,
          "Cannot read properties of undefined (reading id)"⟩ := by
    rw [hrid]
    unfold resolveRegion
    simp only
    rw [hmiss]
  rw [createCartHandler_eq_of_resolve_err w rq db _ hr]
  exact ⟨rfl, rfl⟩

/-- C4 amended witness: the concrete unmatched id `nope` against the
single region `r1`. -/
theorem region_explicit_miss_typeerror_witness :
    (createCartHandler wBase rqBadRegion dbEmpty).out
      = Except.error ⟨ErrKind.jsTypeError,
          "Cannot read properties of undefined (reading id)"⟩
    ∧ (createCartHandler wBase rqBadRegion dbEmpty).db = dbEmpty :=
  region_explicit_miss_typeerror wBase rqBadRegion dbEmpty "nope" rfl (by rfl)

/-- C9: the batch-job creation handler resolves the same
`batchType_`-keyed strategy from the container twice (two `const
batchStrategy` declarations in one scope) and invokes the strategy's
preparation a second time after the batch job is persisted. -/
theorem batch_strategy_double_resolution (ty : String) :
    ((batchJobHandlerOps ty).filter BatchOp.isResolveStrategy).length = 2
    ∧ (batchStrategyDeclOps ty).length = 2
    ∧ ((batchJobHandlerOps ty).filter BatchOp.isPrepare).length = 2
    ∧ (batchJobHandlerOps ty)[1]? = some (BatchOp.resolveStrategy ("batchType_" ++ ty))
    ∧ (batchJobHandlerOps ty)[5]? = some (BatchOp.resolveStrategy ("batchType_" ++ ty))
    ∧ (batchJobHandlerOps ty)[4]? = some BatchOp.createJob
    ∧ (batchJobHandlerOps ty)[6]? = some (BatchOp.prepareWith "batchJobId") :=
  ⟨rfl, rfl, rfl, rfl, rfl, rfl, rfl⟩

/-- C3: a successful creation with a non-empty items list yields exactly
one line item per requested item, generated sequentially in input order
(the k-th line item is the result of generating the k-th request), with
the generation-call trace equal to the requested pairs in order and a
single batch attach call carrying the whole collected list. -/
theorem cart_items_order_preserved (w : World) (rq : Req) (db : DB)
    (cart : StoreCart) (lis : List LineItem) (its : List ItemReq)
    (hfreshC : ∀ c ∈ db.carts, c.id ≠ freshCartId db)
    (hfreshL : ∀ q ∈ db.lineItems, q.1 ≠ freshCartId db)
    (hitems : rq.validatedBody.items = some its)
    (hne : its ≠ [])
    (hok : (createCartHandler w rq db).out = Except.ok (cart, lis)) :
    lis.length = its.length
    ∧ ∃ region,
        resolveRegion w.regions rq.validatedBody.region_id = Except.ok region
        ∧ List.Forall₂ (fun i li =>
            w.generate i.variant_id region i.quantity (userCustomerId rq.user)
              = Except.ok li) its lis
        ∧ (createCartHandler w rq db).trace.generateCalls
            = its.map (fun i => (i.variant_id, i.quantity))
        ∧ (createCartHandler w rq db).trace.attachCalls
            = [(lis, w.featureFlags "sales_channels")] := by
  obtain ⟨region, custo, hr, hc, hcart, hdb1, hdb2, hrest⟩ :=
    createCartHandler_ok_char w rq db cart lis hfreshC hfreshL hok
  rcases its with _ | ⟨i0, irest⟩
  · exact absurd rfl hne
  · rw [hitems] at hrest
    simp only at hrest
    obtain ⟨hgen, htr⟩ := hrest
    have hf2 := generateItems_ok_forall2 w region (userCustomerId rq.user)
      (i0 :: irest) lis hgen
    refine ⟨(List.Forall₂.length_eq hf2).symm, region, hr, hf2, ?_, ?_⟩
    · rw [htr]
      exact generateItems_ok_calls w region (userCustomerId rq.user) (i0 :: irest) lis hgen
    · rw [htr]

/-- C3 witness: two requested items produce two generation calls in
request order. -/
theorem cart_items_order_preserved_witness :
    (createCartHandler wBase rqTwoItems dbEmpty).trace.generateCalls
      = [(⟨"v1", 2⟩ : ItemReq), ⟨"v2", 3⟩].map (fun i => (i.variant_id, i.quantity))
    ∧ ([(⟨"v1", 2, 100⟩ : LineItem), ⟨"v2", 3, 100⟩] : List LineItem).length
        = [(⟨"v1", 2⟩ : ItemReq), ⟨"v2", 3⟩].length := by
  obtain ⟨hlen, region, hr, hf2, hcalls, hatt⟩ :=
    cart_items_order_preserved wBase rqTwoItems dbEmpty cartR1
      [⟨"v1", 2, 100⟩, ⟨"v2", 3, 100⟩] [⟨"v1", 2⟩, ⟨"v2", 3⟩]
      (by simp [dbEmpty]) (by simp [dbEmpty]) rfl (by decide) (by rfl)
  exact ⟨hcalls, hlen⟩

/-- C5: a successful creation's cart context maps `ip` and `user_agent`
to the caller-supplied value when the caller context carries the key, and
to the auto-populated request value otherwise (caller context is spread
on top of the request context, so the caller wins on collision). -/
theorem cart_context_autofill_override (w : World) (rq : Req) (db : DB)
    (cart : StoreCart) (lis : List LineItem)
    (hfreshC : ∀ c ∈ db.carts, c.id ≠ freshCartId db)
    (hfreshL : ∀ q ∈ db.lineItems, q.1 ≠ freshCartId db)
    (hok : (createCartHandler w rq db).out = Except.ok (cart, lis)) :
    List.lookup "ip" cart.context
      = some ((List.lookup "ip" rq.validatedBody.context).getD rq.ip)
    ∧ List.lookup "user_agent" cart.context
      = some ((List.lookup "user_agent" rq.validatedBody.context).getD rq.user_agent) := by
  obtain ⟨region, custo, hr, hc, hcart, _, _, _⟩ :=
    createCartHandler_ok_char w rq db cart lis hfreshC hfreshL hok
  have hctx : cart.context
      = spreadMerge [("ip", rq.ip), ("user_agent", rq.user_agent)]
          rq.validatedBody.context := by
    rw [hcart]
    exact buildAttrs_context rq.validatedBody
      [("ip", rq.ip), ("user_agent", rq.user_agent)] region custo
  rw [hctx]
  have hbip : List.lookup "ip" [("ip", rq.ip), ("user_agent", rq.user_agent)]
      = some rq.ip := rfl
  have hbua : List.lookup "user_agent" [("ip", rq.ip), ("user_agent", rq.user_agent)]
      = some rq.user_agent := rfl
  constructor
  · rw [lookup_spreadMerge, hbip]
    cases h : List.lookup "ip" rq.validatedBody.context <;>
      simp [h, Option.orElse]
  · rw [lookup_spreadMerge, hbua]
    cases h : List.lookup "user_agent" rq.validatedBody.context <;>
      simp [h, Option.orElse]

/-- C5 witness: a caller-supplied `ip` wins while the auto-populated
`user_agent` remains. -/
theorem cart_context_autofill_override_witness :
    List.lookup "ip" (spreadMerge [("ip", "::1"), ("user_agent", "Chrome")]
        [("ip", "override-ip")])
      = some ((List.lookup "ip" rqCallerCtx.validatedBody.context).getD rqCallerCtx.ip)
    ∧ List.lookup "user_agent" (spreadMerge [("ip", "::1"), ("user_agent", "Chrome")]
        [("ip", "override-ip")])
      = some ((List.lookup "user_agent" rqCallerCtx.validatedBody.context).getD
          rqCallerCtx.user_agent) := by
  have h := cart_context_autofill_override wBase rqCallerCtx dbEmpty
    { cartR1 with context := [("user_agent", "Chrome"), ("ip", "override-ip")] } []
    (by simp [dbEmpty]) (by simp [dbEmpty]) (by rfl)
  exact h

/-- C6 counterexample: an item with a present variant id and the
non-positive integer quantity `0` passes the `Item` validators — the
validation layer does not reject non-positive quantities, contrary to the
claim. -/
theorem item_validation_nonpositive_cex :
    validateItem (some (JsVal.str "v1")) (some (JsVal.intVal 0)) = true := by decide

/-- C6 amended: the `Item` validators reject a missing variant id, an
empty or non-string variant id, and a missing or non-integer quantity,
but accept every integer quantity, non-positive values included (the
quantity-positivity check is not performed at the validation boundary). -/
theorem item_validation_boundary (vid q : Option JsVal) :
    (vid = none → validateItem vid q = false)
    ∧ (vid = some (JsVal.str "") → validateItem vid q = false)
    ∧ (∀ v, vid = some v → (∀ s, v ≠ JsVal.str s) → validateItem vid q = false)
    ∧ (q = none → validateItem vid q = false)
    ∧ (∀ v, q = some v → (∀ n : Int, v ≠ JsVal.intVal n) → validateItem vid q = false)
    ∧ (∀ s, vid = some (JsVal.str s) → s ≠ "" → ∀ n : Int,
        q = some (JsVal.intVal n) → validateItem vid q = true) := by
  refine ⟨?_, ?_, ?_, ?_, ?_, ?_⟩
  · intro h
    subst h
    rfl
  · intro h
    subst h
    rfl
  · intro v hv hns
    subst hv
    cases v with
    | str s => exact absurd rfl (hns s)
    | intVal n => simp [validateItem, isStringV]
    | floatVal a b => simp [validateItem, isStringV]
    | nullVal => simp [validateItem, isStringV]
    | boolVal b => simp [validateItem, isStringV]
  · intro h
    subst h
    simp [validateItem, isNotEmptyV]
  · intro v hq hni
    subst hq
    cases v with
    | intVal n => exact absurd rfl (hni n)
    | str s => simp [validateItem, isIntV]
    | floatVal a b => simp [validateItem, isIntV]
    | nullVal => simp [validateItem, isIntV]
    | boolVal b => simp [validateItem, isIntV]
  · intro s hv hs n hq
    subst hv
    subst hq
    simp [validateItem, isNotEmptyV, isStringV, isIntV, hs]

/-- C6 witness: a missing variant id and a numeric (non-string) variant
id are rejected, while variant `v1` with quantity `-2` is accepted. -/
theorem item_validation_boundary_witness :
    validateItem none (some (JsVal.intVal 2)) = false
    ∧ validateItem (some (JsVal.intVal 7)) (some (JsVal.intVal 2)) = false
    ∧ validateItem (some (JsVal.str "v1")) (some (JsVal.intVal (-2))) = true :=
  ⟨(item_validation_boundary none (some (JsVal.intVal 2))).1 rfl,
   (item_validation_boundary (some (JsVal.intVal 7))
      (some (JsVal.intVal 2))).2.2.1 (JsVal.intVal 7) rfl (by intro s h; cases h),
   (item_validation_boundary (some (JsVal.str "v1"))
      (some (JsVal.intVal (-2)))).2.2.2.2.2 "v1" rfl (by decide) (-2) rfl⟩

/-- C7 counterexample: a successful request with no items never consults
the `sales_channels` feature flag — zero consultations, not the claimed
exactly one per request. -/
theorem flag_consult_count_cex :
    (createCartHandler wBase rqPlain dbEmpty).out = Except.ok (cartR1, [])
    ∧ (createCartHandler wBase rqPlain dbEmpty).trace.flagConsults = []
    ∧ ([] : List String).length ≠ 1 :=
  ⟨rfl, rfl, by decide⟩

/-- C7 amended: on a successful request the `sales_channels` flag is
consulted exactly once if the items list is non-empty (at the batch
attach, whose `validateSalesChannels` option is exactly the flag's value)
and never if the items field is absent or empty; an attach with the
option unset performs no sales-channel validation and always succeeds. -/
theorem flag_consulted_only_on_attach (w : World) (rq : Req) (db : DB)
    (cart : StoreCart) (lis : List LineItem)
    (hfreshC : ∀ c ∈ db.carts, c.id ≠ freshCartId db)
    (hfreshL : ∀ q ∈ db.lineItems, q.1 ≠ freshCartId db)
    (hok : (createCartHandler w rq db).out = Except.ok (cart, lis)) :
    ((rq.validatedBody.items = none ∨ rq.validatedBody.items = some []) →
      (createCartHandler w rq db).trace.flagConsults = [])
    ∧ (∀ its, rq.validatedBody.items = some its → its ≠ [] →
        (createCartHandler w rq db).trace.flagConsults = ["sales_channels"]
        ∧ (createCartHandler w rq db).trace.attachCalls
            = [(lis, w.featureFlags "sales_channels")])
    ∧ ∀ cartId lis2 db2, addLineItems w cartId lis2 false db2
        = Except.ok
            { db2 with lineItems := db2.lineItems ++ lis2.map (fun li => (cartId, li)) } := by
  obtain ⟨region, custo, hr, hc, hcart, hdb1, hdb2, hrest⟩ :=
    createCartHandler_ok_char w rq db cart lis hfreshC hfreshL hok
  refine ⟨?_, ?_, ?_⟩
  · intro h
    rcases h with h | h <;> rw [h] at hrest <;> simp only at hrest <;>
      rw [hrest.2]
  · intro its hits hne
    rcases its with _ | ⟨i0, irest⟩
    · exact absurd rfl hne
    · rw [hits] at hrest
      simp only at hrest
      rw [hrest.2]
      exact ⟨rfl, rfl⟩
  · intro cartId lis2 db2
    unfold addLineItems
    simp

/-- C7 amended witness: with one requested item the flag is consulted
exactly once and the attach option equals the enabled flag. -/
theorem flag_consulted_only_on_attach_witness :
    (createCartHandler wBase rqOneItem dbEmpty).trace.flagConsults = ["sales_channels"]
    ∧ (createCartHandler wBase rqOneItem dbEmpty).trace.attachCalls
        = [([(⟨"v1", 2, 100⟩ : LineItem)], wBase.featureFlags "sales_channels")] := by
  obtain ⟨h1, h2, h3⟩ :=
    flag_consulted_only_on_attach wBase rqOneItem dbEmpty cartR1 [⟨"v1", 2, 100⟩]
      (by simp [dbEmpty]) (by simp [dbEmpty]) (by rfl)
  exact h2 [⟨"v1", 2⟩] rfl (by decide)

/-- C8: with an authenticated customer, the created cart's customer id
and email come from the customer record independently re-fetched by id
from the identity collaborator; with no requested items the resulting
line-item sequence is empty. -/
theorem cart_customer_from_refetched_record (w : World) (rq : Req) (db : DB)
    (cart : StoreCart) (lis : List LineItem) (u : AuthUser) (cid : String) (c : Customer)
    (hfreshC : ∀ x ∈ db.carts, x.id ≠ freshCartId db)
    (hfreshL : ∀ q ∈ db.lineItems, q.1 ≠ freshCartId db)
    (huser : rq.user = some u)
    (hcid : u.customer_id = some cid)
    (hne : cid ≠ "")
    (hcust : w.customers.find? (fun x => x.id == cid) = some c)
    (hok : (createCartHandler w rq db).out = Except.ok (cart, lis)) :
    cart.customer_id = some c.id
    ∧ cart.email = some c.email
    ∧ ((rq.validatedBody.items = none ∨ rq.validatedBody.items = some []) → lis = []) := by
  obtain ⟨region, custo, hr, hc, hcart, hdb1, hdb2, hrest⟩ :=
    createCartHandler_ok_char w rq db cart lis hfreshC hfreshL hok
  have hbe : (cid == "") = false := by
    cases hb : (cid == "") with
    | true => exact absurd (by simpa using hb) hne
    | false => rfl
  have hatt : attachCustomer w rq.user = Except.ok (some (c.id, c.email)) := by
    unfold attachCustomer
    rw [huser]
    simp only
    rw [hcid]
    simp only
    rw [hbe]
    simp only [Bool.false_eq_true, if_false]
    unfold retrieveCustomer
    rw [hcust]
  rw [hatt] at hc
  injection hc with hc
  subst hc
  have hcu := buildAttrs_customer rq.validatedBody
    [("ip", rq.ip), ("user_agent", rq.user_agent)] region (c.id, c.email)
  refine ⟨?_, ?_, ?_⟩
  · rw [hcart]
    exact hcu.1
  · rw [hcart]
    exact hcu.2
  · intro h
    rcases h with h | h <;> rw [h] at hrest <;> simp only at hrest <;> exact hrest.1

/-- C8 witness: authenticated customer `c1` with email `a@b.com` and no
items yields that customer id, that email, and no line items. -/
theorem cart_customer_from_refetched_record_witness :
    cartAuth.customer_id = some (⟨"c1", "a@b.com"⟩ : Customer).id
    ∧ cartAuth.email = some (⟨"c1", "a@b.com"⟩ : Customer).email
    ∧ (([] : List LineItem) = []) := by
  obtain ⟨h1, h2, h3⟩ :=
    cart_customer_from_refetched_record wBase rqAuthNoItems dbEmpty cartAuth []
      ⟨"u1", some "c1"⟩ "c1" ⟨"c1", "a@b.com"⟩
      (by simp [dbEmpty]) (by simp [dbEmpty]) rfl rfl (by decide) (by rfl) (by rfl)
  exact ⟨h1, h2, h3 (Or.inl rfl)⟩

/-- C10: when the items field is absent or an empty list, no generation
call, no attach call and no feature-flag consultation happens (the whole
trace is empty), yet the transaction commits: a cart with zero line items
is persisted and returned. -/
theorem empty_items_frame (w : World) (rq : Req) (db : DB)
    (region : Region) (custo : Option (String × String))
    (hfreshC : ∀ c ∈ db.carts, c.id ≠ freshCartId db)
    (hfreshL : ∀ q ∈ db.lineItems, q.1 ≠ freshCartId db)
    (hitems : rq.validatedBody.items = none ∨ rq.validatedBody.items = some [])
    (hr : resolveRegion w.regions rq.validatedBody.region_id = Except.ok region)
    (hc : attachCustomer w rq.user = Except.ok custo) :
    ∃ cart, (createCartHandler w rq db).out = Except.ok (cart, [])
      ∧ (createCartHandler w rq db).trace = ⟨[], [], []⟩
      ∧ cart ∈ (createCartHandler w rq db).db.carts := by
  have htx := txBlock_items_empty w rq.validatedBody region (userCustomerId rq.user)
    (buildAttrs rq.validatedBody [("ip", rq.ip), ("user_agent", rq.user_agent)]
      region custo) db hitems
  have heq := createCartHandler_eq_of_tx_ok w rq db region custo ⟨[], [], []⟩ _ hr hc htx
  simp only at heq
  have hretr : retrieveWithTotals
      ({ carts := db.carts ++ [{ buildAttrs rq.validatedBody
            [("ip", rq.ip), ("user_agent", rq.user_agent)] region custo
            with id := freshCartId db }],
         lineItems := db.lineItems, nextId := db.nextId + 1 } : DB) (freshCartId db)
      = Except.ok ({ buildAttrs rq.validatedBody
            [("ip", rq.ip), ("user_agent", rq.user_agent)] region custo
            with id := freshCartId db }, []) := by
    have h := retrieveWithTotals_append db.carts db.lineItems (db.nextId + 1)
      ({ buildAttrs rq.validatedBody [("ip", rq.ip), ("user_agent", rq.user_agent)]
          region custo with id := freshCartId db }) [] (freshCartId db) rfl hfreshC hfreshL
    simpa using h
  rw [hretr] at heq
  refine ⟨{ buildAttrs rq.validatedBody [("ip", rq.ip), ("user_agent", rq.user_agent)]
      region custo with id := freshCartId db }, ?_, ?_, ?_⟩
  · rw [heq]
  · rw [heq]
  · rw [heq]
    simp

/-- C10 witness: a request with no items field commits an empty cart with
an empty trace. -/
theorem empty_items_frame_witness :
    (createCartHandler wBase rqPlain dbEmpty).out = Except.ok (cartR1, [])
    ∧ (createCartHandler wBase rqPlain dbEmpty).trace = ⟨[], [], []⟩
    ∧ cartR1 ∈ (createCartHandler wBase rqPlain dbEmpty).db.carts := by
  obtain ⟨cart, hout, htr, hmem⟩ := empty_items_frame wBase rqPlain dbEmpty ⟨"r1"⟩ none
    (by simp [dbEmpty]) (by simp [dbEmpty]) (Or.inl rfl) (by rfl) (by rfl)
  have hev : (createCartHandler wBase rqPlain dbEmpty).out = Except.ok (cartR1, []) := rfl
  rw [hev] at hout
  injection hout with hp
  injection hp with hcart hnil
  exact ⟨hev, htr, hcart ▸ hmem⟩
